import Mathlib

/-!
Verification of the acars-parser decoding core.

Go source is embedded shallowly: Go strings are Lean `String`s (ASCII
payloads, so byte indexing coincides with character indexing), Go `int`
is `Int`, Go `float64` arithmetic on the small exact values used here is
modelled by `ℚ`, and fallible operations (`strconv.Atoi`) return
`Option`.  Definitions follow `src/internal/parsers/fst/parser.go`,
`src/internal/parsers/fst/grok.go` and the Label 80 decoder; components
of the repository that are absent from `src/` (the grok pattern
compiler, the registry, the airport lookup) are modelled from the spec
and marked as such in their doc comments.
-/

namespace AcarsProof

/-- ASCII digit test, semantically `'0' <= c && c <= '9'` as in Go. -/
def isDigitChar (c : Char) : Bool := 48 ≤ c.toNat && c.toNat ≤ 57

/-- Numeric value of a digit character. -/
def dval (c : Char) : Nat := c.toNat - 48

/-- Uppercase ASCII letter test (`'A' <= c && c <= 'Z'`). -/
def isUpperChar (c : Char) : Bool := 65 ≤ c.toNat && c.toNat ≤ 90

/-- Whitespace per Go's `unicode.IsSpace` (the code points relevant to
ACARS payloads). -/
def isSpaceChar (c : Char) : Bool :=
  c = ' ' || c = '\t' || c = '\n' || c = '\r' ||
  c.toNat = 11 || c.toNat = 12 || c.toNat = 133 || c.toNat = 160

/-- Go slice `s[i:j]` on a character list. -/
def sub (l : List Char) (i j : Nat) : List Char := (l.drop i).take (j - i)

/-- Accumulator loop of decimal parsing: fails on any non-digit. -/
def atoiNatAux (acc : Nat) : List Char → Option Nat
  | [] => some acc
  | c :: cs => if isDigitChar c then atoiNatAux (acc * 10 + dval c) cs else none

/-- Unsigned decimal parse; empty input is an error, as in Go. -/
def atoiNat (l : List Char) : Option Nat :=
  match l with
  | [] => none
  | _ => atoiNatAux 0 l

/-- Go `strconv.Atoi` for 64-bit int: optional sign, all digits,
range-checked against int64 (out of range is an error). -/
def atoiL (l : List Char) : Option Int :=
  match l with
  | [] => none
  | c :: rest =>
    if c = '-' then
      match atoiNat rest with
      | some n => if n ≤ 2 ^ 63 then some (-(n : Int)) else none
      | none => none
    else if c = '+' then
      match atoiNat rest with
      | some n => if n ≤ 2 ^ 63 - 1 then some (n : Int) else none
      | none => none
    else
      match atoiNat (c :: rest) with
      | some n => if n ≤ 2 ^ 63 - 1 then some (n : Int) else none
      | none => none

/-- Go `strconv.Atoi` on a string. -/
def atoi (s : String) : Option Int := atoiL s.toList

/-- Worker for `goFields`: `acc` holds the current token reversed. -/
def goFieldsAux : List Char → List Char → List String
  | [], acc => if acc.isEmpty then [] else [⟨acc.reverse⟩]
  | c :: cs, acc =>
    if isSpaceChar c then
      if acc.isEmpty then goFieldsAux cs [] else ⟨acc.reverse⟩ :: goFieldsAux cs []
    else goFieldsAux cs (c :: acc)

/-- Go `strings.Fields`: split around runs of whitespace. -/
def goFields (s : String) : List String := goFieldsAux s.toList []

/-- Go `strings.TrimSpace`. -/
def goTrimSpace (s : String) : String :=
  ⟨((s.toList.dropWhile isSpaceChar).reverse.dropWhile isSpaceChar).reverse⟩

/-- Go `strings.HasPrefix`. -/
def goHasPre (s p : String) : Bool := p.toList.isPrefixOf s.toList

/-- Go `strings.TrimPrefix`. -/
def goTrimPre (s p : String) : String :=
  if p.toList.isPrefixOf s.toList then ⟨s.toList.drop p.toList.length⟩ else s

/-- Go `strings.Index` (first occurrence of `pat`), as an `Option`. -/
def indexOfL (pat : List Char) : List Char → Option Nat
  | [] => if pat.isEmpty then some 0 else none
  | c :: cs =>
    if pat.isPrefixOf (c :: cs) then some 0
    else (indexOfL pat cs).map (· + 1)

/-- Go `strings.Contains`. -/
def goContains (s p : String) : Bool := (indexOfL p.toList s.toList).isSome

/-- Membership of a character (Go `strings.Contains` with a one-char
needle). -/
def containsChar (s : String) (c : Char) : Bool := s.toList.contains c

/-- Go integer division: truncation toward zero (defined for a nonzero
divisor; both uses in the source have a positive literal divisor). -/
def goDiv (a b : Int) : Int :=
  if (0 ≤ a ∧ 0 ≤ b) ∨ (a < 0 ∧ b < 0) then ((a.natAbs / b.natAbs : Nat) : Int)
  else -((a.natAbs / b.natAbs : Nat) : Int)

/-- Go `%`: remainder with the sign of the dividend. -/
def goMod (a b : Int) : Int := a - b * goDiv a b

/-- The ACARS `Message` input record (`internal/acars`, fields used by
the decoders under proof). -/
structure GoMsg where
  id : Int
  timestamp : String
  label : String
  text : String
  tail : String
deriving DecidableEq, Repr

/-- Parsed Label 15 FST report (`fst.Result`, parser.go lines 16-35);
Go zero values stand for the omitted-field state. -/
structure FstResult where
  msgID : Int
  timestamp : String
  tail : String
  sequence : String
  origin : String
  destination : String
  latitude : ℚ
  longitude : ℚ
  flightLevel : Int
  groundSpeed : Int
  speedUnit : String
  ias : Int
  tas : Int
  speedType : String
  temperature : Int
  windSpeed : Int
  windDirection : Int
  rawData : String
deriving DecidableEq, Repr

/-- `parseCoord` (parser.go lines 136-218).  The 6-digit arm keeps the
Go control flow: the first component of `stageA` is a `some` value
exactly when the decimal-degrees early return fires, otherwise the pair
`(deg, min)` carries the mutable locals after the `DDMMTT` attempt. -/
def parseCoord (s : String) : ℚ :=
  let l := s.toList
  if l.length < 5 then 0
  else if l.length = 5 then
    match atoiL (sub l 0 2), atoiL (sub l 2 4), atoiL (sub l 4 5) with
    | some deg, some minWhole, some minTenths =>
      let min : ℚ := (minWhole : ℚ) + (minTenths : ℚ) / 10
      if 60 ≤ min then 0 else (deg : ℚ) + min / 60
    | _, _, _ => 0
  else if l.length = 6 then
    let stageA : Option ℚ × Int × ℚ :=
      match atoiL (sub l 0 2), atoiL (sub l 2 4), atoiL (sub l 4 6) with
      | some deg2, some minWhole2, some minHundredths2 =>
        let minTest : ℚ := (minWhole2 : ℚ) + (minHundredths2 : ℚ) / 100
        if deg2 ≤ 180 ∧ minTest < 60 then (none, deg2, minTest)
        else if deg2 ≤ 90 ∧ 60 ≤ minTest then
          match atoiL (sub l 2 6) with
          | some dec => (some ((deg2 : ℚ) + (dec : ℚ) / 10000), 0, 0)
          | none => (none, 0, 0)
        else (none, 0, 0)
      | _, _, _ => (none, 0, 0)
    match stageA with
    | (some q, _, _) => q
    | (none, deg, min) =>
      let stageB : Int × ℚ :=
        if deg = 0 then
          match atoiL (sub l 0 3), atoiL (sub l 3 5), atoiL (sub l 5 6) with
          | some deg3, some minWhole3, some minTenths3 =>
            let minTest : ℚ := (minWhole3 : ℚ) + (minTenths3 : ℚ) / 10
            if 90 < deg3 ∧ deg3 ≤ 180 ∧ minTest < 60 then (deg3, minTest)
            else (deg, min)
          | _, _, _ => (deg, min)
        else (deg, min)
      if stageB.1 = 0 then 0
      else if 60 ≤ stageB.2 then 0
      else (stageB.1 : ℚ) + stageB.2 / 60
  else if l.length = 7 then
    match atoiL (sub l 0 3) with
    | some deg =>
      if 180 < deg then 0
      else
        match atoiL (sub l 3 7) with
        | some dec => (deg : ℚ) + (dec : ℚ) / 10000
        | none => 0
    | none => 0
  else 0

/-- First step of `parseFields` (parser.go lines 229-234): flight level
from `parts[0]` when it is a number in 0..600. -/
def flStep : List String → FstResult → FstResult
  | p0 :: _, r =>
    (match atoi p0 with
     | some fl => if 0 ≤ fl ∧ fl ≤ 600 then { r with flightLevel := fl } else r
     | none => r)
  | [], r => r

/-- Speed classification of `parts[1]` (parser.go lines 236-301),
including the look at `parts[2]` in the 100-349 branch. -/
def speedStep : List String → FstResult → FstResult
  | _ :: p1 :: rest, r =>
    (match atoi p1 with
    | some speed =>
      if 0 < speed then
        if p1.length = 7 ∧ 1000000 < speed then
          match atoiL (sub p1.toList 0 3) with
          | some ias =>
            let r1 := { r with ias := ias }
            match atoiL (sub p1.toList 3 7) with
            | some kmh =>
              { r1 with groundSpeed := kmh, speedUnit := "kmh", speedType := "IAS+KMH" }
            | none => r1
          | none => r
        else if 1000 < speed ∧ 4 < p1.length then
          match atoiL (sub p1.toList 0 3) with
          | some s2 => { r with ias := s2, speedType := "IAS" }
          | none => r
        else if 700 ≤ speed ∧ speed ≤ 1000 then
          { r with groundSpeed := speed, speedUnit := "kmh", speedType := "KMH" }
        else if 350 ≤ speed ∧ speed < 700 then
          { r with groundSpeed := speed, speedUnit := "knots", speedType := "GS" }
        else if 100 ≤ speed ∧ speed < 350 then
          let r1 := { r with ias := speed, speedType := "IAS" }
          match rest with
          | p2 :: _ =>
            match atoi p2 with
            | some nextSpeed =>
              if 100 ≤ nextSpeed ∧ nextSpeed < 1000 then
                if 700 ≤ nextSpeed then
                  { r1 with groundSpeed := nextSpeed, speedUnit := "kmh",
                            speedType := "IAS+KMH" }
                else
                  { r1 with groundSpeed := nextSpeed, speedUnit := "knots",
                            speedType := "IAS+GS" }
              else r1
            | none => r1
          | [] => r1
        else { r with groundSpeed := speed, speedUnit := "knots", speedType := "GS" }
      else r
    | none => r)
  | _, r => r

/-- Structural form of the regex match
`^([MP])(\d{2,3})C?$` (parser.go line 305); yields the sign character
and the captured digit group. -/
def tempMatch (s : String) : Option (Char × String) :=
  match s.toList with
  | c :: rest =>
    if c = 'M' ∨ c = 'P' then
      match rest with
      | [a, b] =>
        if isDigitChar a ∧ isDigitChar b then some (c, ⟨[a, b]⟩) else none
      | [a, b, d] =>
        if isDigitChar a ∧ isDigitChar b ∧ d = 'C' then some (c, ⟨[a, b]⟩)
        else if isDigitChar a ∧ isDigitChar b ∧ isDigitChar d then some (c, ⟨[a, b, d]⟩)
        else none
      | [a, b, d, e] =>
        if isDigitChar a ∧ isDigitChar b ∧ isDigitChar d ∧ e = 'C' then
          some (c, ⟨[a, b, d]⟩)
        else none
      | _ => none
    else none
  | [] => none

/-- Wind extraction from the token following the temperature
(parser.go lines 315-336): first `SSDDD`, then `SSSDDD` when the first
attempt left the wind speed at zero. -/
def windStep (w : String) (r : FstResult) : FstResult :=
  if 5 ≤ w.length then
    let r2 :=
      match atoiL (sub w.toList 0 2) with
      | some ws =>
        if 0 ≤ ws ∧ ws ≤ 99 then
          match atoiL (sub w.toList 2 5) with
          | some wd =>
            if 0 ≤ wd ∧ wd ≤ 360 then { r with windSpeed := ws, windDirection := wd }
            else r
          | none => r
        else r
      | none => r
    if r2.windSpeed = 0 ∧ 6 ≤ w.length then
      match atoiL (sub w.toList 0 3) with
      | some ws =>
        if 100 ≤ ws ∧ ws ≤ 999 then
          match atoiL (sub w.toList 3 6) with
          | some wd =>
            if 0 ≤ wd ∧ wd ≤ 360 then { r2 with windSpeed := ws, windDirection := wd }
            else r2
          | none => r2
        else r2
      | none => r2
    else r2
  else r

/-- The temperature scan (parser.go lines 306-340): starting at
`parts[2]`, find the first token matching the temperature pattern, set
the temperature, read wind data from the next token, and stop. -/
def tempWindScan : List String → FstResult → FstResult
  | [], r => r
  | p :: rest, r =>
    match tempMatch p with
    | some (sign, digits) =>
      match atoi digits with
      | some t =>
        let r1 := { r with temperature := if sign = 'M' then -t else t }
        match rest with
        | w :: _ => windStep w r1
        | [] => r1
      | none => tempWindScan rest r
    | none => tempWindScan rest r

/-- `parseFields` (parser.go lines 225-341). -/
def parseFields (data : String) (r : FstResult) : FstResult :=
  let parts := goFields data
  tempWindScan (parts.drop 2) (speedStep parts (flStep parts r))

/-- `Parser.QuickCheck` for FST (parser.go lines 67-71). -/
def fstQuickCheck (text : String) : Bool :=
  goHasPre (goTrimSpace text) "FST" || goContains text "FST01" || goContains text "FST02"

/-- Captures of an FST header format match (grok.go). -/
structure FstCaps where
  seq : String
  origin : String
  dest : String
  latDir : String
  lat : String
  lonDir : String
  lon : String
  rest : String
deriving DecidableEq, Repr

/-- Modelled from the spec: the `{ICAO}` base pattern of the pattern
library (package `internal/patterns`, absent from src/) — a four-letter
airport identifier; modelled as four uppercase ASCII letters. -/
def icaoTok (l : List Char) : Bool := l.length = 4 && l.all isUpperChar

/-- One FST header format of grok.go, parameterised by the longitude
digit count (7, 6 or 5 per format); the latitude is 6 digits in the
first two formats and 5 in the third.  Structural reading of the
anchored-at-`FST` regex
`FST(\d{2})({ICAO})({ICAO})([NS])(\d{lat})([EW])(\d{lon})(.+)`. -/
def fstMatchWidths (latW lonW : Nat) (l : List Char) : Option FstCaps :=
  let seq := sub l 3 5
  let origin := sub l 5 9
  let dest := sub l 9 13
  let latDir := sub l 13 14
  let lat := sub l 14 (14 + latW)
  let lonDir := sub l (14 + latW) (15 + latW)
  let lon := sub l (15 + latW) (15 + latW + lonW)
  let rest := l.drop (15 + latW + lonW)
  if ("FST".toList.isPrefixOf l) ∧ (sub l 3 5).all isDigitChar ∧ seq.length = 2 ∧
      icaoTok origin ∧ icaoTok dest ∧
      (latDir = ['N'] ∨ latDir = ['S']) ∧
      lat.length = latW ∧ lat.all isDigitChar ∧
      (lonDir = ['E'] ∨ lonDir = ['W']) ∧
      lon.length = lonW ∧ lon.all isDigitChar ∧
      rest ≠ [] then
    some ⟨⟨seq⟩, ⟨origin⟩, ⟨dest⟩, ⟨latDir⟩, ⟨lat⟩, ⟨lonDir⟩, ⟨lon⟩, ⟨rest⟩⟩
  else none

/-- Modelled from the spec: `Compiler.Parse` of the pattern compiler
(package `internal/patterns`, absent from src/) applied to the FST
format list — tries each compiled format in declaration order
(grok.go: 7-digit longitude, then 6-digit, then 5-digit) and returns
the first match.  The match is taken at the `FST` prefix to which
`Parser.Parse` has already stripped the text. -/
def fstFormatsMatch (l : List Char) : Option FstCaps :=
  match fstMatchWidths 6 7 l with
  | some c => some c
  | none =>
    match fstMatchWidths 6 6 l with
    | some c => some c
    | none => fstMatchWidths 5 5 l

/-- The prefix-stripping step of `Parse` (parser.go lines 80-83): cut
the text at the first occurrence of "FST". -/
def fstStrip (text : String) : String :=
  match indexOfL "FST".toList text.toList with
  | some idx => if 0 < idx then ⟨text.toList.drop idx⟩ else text
  | none => text

/-- The result construction of `Parse` from a format match (parser.go
lines 96-126). -/
def fstBuild (msg : GoMsg) (caps : FstCaps) : FstResult :=
  let lat0 := parseCoord caps.lat
  let lat := if caps.latDir = "S" then -lat0 else lat0
  let lon0 := parseCoord caps.lon
  let lon := if caps.lonDir = "W" then -lon0 else lon0
  let r : FstResult :=
    { msgID := msg.id, timestamp := msg.timestamp, tail := msg.tail,
      sequence := caps.seq, origin := caps.origin, destination := caps.dest,
      latitude := lat, longitude := lon,
      flightLevel := 0, groundSpeed := 0, speedUnit := "", ias := 0, tas := 0,
      speedType := "", temperature := 0, windSpeed := 0, windDirection := 0,
      rawData := "" }
  if caps.rest.length > 0 then
    parseFields caps.rest { r with rawData := caps.rest }
  else r

/-- `fst.Parser.Parse` (parser.go lines 73-127). -/
def fstParse (msg : GoMsg) : Option FstResult :=
  if msg.text = "" then none
  else
    match fstFormatsMatch (fstStrip (goTrimSpace msg.text)).toList with
    | none => none
    | some caps => some (fstBuild msg caps)

/-- A match produced by the pattern compiler's `ParseAll`: format name
plus captured fields (a missing key reads as `""`, like a Go map). -/
structure Match where
  formatName : String
  captures : List (String × String)
deriving DecidableEq, Repr

/-- Capture lookup with the Go map default. -/
def capt (m : Match) (k : String) : String := (m.captures.lookup k).getD ""

/-- Label 80 position result (`label80.Result`). -/
structure L80Result where
  msgID : Int
  timestamp : String
  tail : String
  msgType : String
  flightNum : String
  originICAO : String
  originName : String
  destICAO : String
  destName : String
  latitude : ℚ
  longitude : ℚ
  altitude : Int
  mach : String
  tas : Int
  fuelOnBoard : Int
  eta : String
  reportTime : String
  windDir : Int
  windSpeedKts : Int
  windSpeedKmh : Int
  oatc : Int
  outTime : String
  offTime : String
  onTime : String
  inTime : String
deriving DecidableEq, Repr

/-- Modelled from the spec: `patterns.ParseDecimalCoord` (package
`internal/patterns`, absent from src/) — "converts string + hemisphere
letter to signed decimal degrees; negates for `S` and `W`".  The number
is an optional minus sign, digits, and an optional dot with a fraction;
a malformed number reads as 0. -/
def parseDecimalCoord (s dir : String) : ℚ :=
  let num : ℚ :=
    let l := s.toList
    let core : List Char → ℚ := fun l =>
      match l.splitOn '.' with
      | [ip] =>
        (match atoiNat ip with
         | some n => (n : ℚ)
         | none => 0)
      | [ip, fp] =>
        (match atoiNat ip with
         | some n =>
           if fp.all isDigitChar then
             (n : ℚ) + ((fp.foldl (fun a c => a * 10 + dval c) 0 : Nat) : ℚ) /
               ((10 : ℚ) ^ fp.length)
           else 0
         | none => 0)
      | _ => 0
    match l with
    | '-' :: rest => -(core rest)
    | _ => core l
  if dir = "S" ∨ dir = "W" then -num else num

/-- `parseLabel80Coord` (part_005 lines 224-248). -/
def parseLabel80Coord (s0 dir : String) : ℚ :=
  let s := goTrimSpace s0
  if s = "" then 0
  else if containsChar s '.' then parseDecimalCoord s dir
  else
    let s' :=
      if dir = "E" ∨ dir = "W" then
        let degDigits := if s.length ≤ 5 then 2 else 3
        if degDigits < s.length then ⟨s.toList.take degDigits ++ '.' :: s.toList.drop degDigits⟩
        else s
      else
        if 2 < s.length then ⟨s.toList.take 2 ++ '.' :: s.toList.drop 2⟩ else s
    parseDecimalCoord s' dir

/-- Structural form of `^[A-Z]{2,3}\d{1,4}[A-Z]?$`: a 2-3 letter run, a
1-4 digit run, and at most one trailing letter. -/
def flightShape (l : List Char) : Bool :=
  let u := l.takeWhile isUpperChar
  let l1 := l.drop u.length
  let d := l1.takeWhile isDigitChar
  let l2 := l1.drop d.length
  (2 ≤ u.length && u.length ≤ 3) && (1 ≤ d.length && d.length ≤ 4) &&
    (l2 = [] || (l2.length = 1 && l2.all isUpperChar))

/-- `isLikelyFlight` (part_005 lines 252-266). -/
def isLikelyFlight (s0 : String) : Bool :=
  let s := goTrimSpace s0
  if s = "" then false
  else if containsChar s '/' then false
  else if flightShape s.toList then true
  else s.toList.all isDigitChar && 1 ≤ s.length && s.length ≤ 4

/-- `formatHHMM` (part_005 lines 269-288). -/
def formatHHMM (s0 : String) : String :=
  let s := goTrimSpace s0
  if s = "" then ""
  else
    let s := if s.length = 3 then "0" ++ s else s
    if s.length ≠ 4 then ""
    else
      let hh : String := ⟨s.toList.take 2⟩
      let mm : String := ⟨s.toList.drop 2⟩
      match atoi hh, atoi mm with
      | some h, some m =>
        if h < 0 ∨ 23 < h ∨ m < 0 ∨ 59 < m then "" else hh ++ ":" ++ mm
      | _, _ => ""

/-- The altitude heuristic of the Label 80 `altitude` case (part_005
lines 148-156): a parsed 1-3 character value in 1..500 is a flight
level and is scaled by 100; `none` when `Atoi` fails. -/
def label80Altitude (s0 : String) : Option Int :=
  let altStr := goTrimSpace s0
  match atoi altStr with
  | some alt =>
    some (if altStr.length ≤ 3 ∧ 0 < alt ∧ alt ≤ 500 then alt * 100 else alt)
  | none => none

/-- The knots-to-km/h conversion of the Label 80 `wind` case (part_005
line 190): `(spd*1852 + 500) / 1000` in Go integer arithmetic. -/
def windKmhOfKts (spd : Int) : Int := goDiv (spd * 1852 + 500) 1000

/-- The wind-direction normalisation of the Label 80 `wind` case
(part_005 lines 180-186): reduce modulo 360 and shift into [0, 360). -/
def windDirNorm (d : Int) : Int :=
  let d1 := goMod d 360
  if d1 < 0 then d1 + 360 else d1

/-- Second half of airport-name resolution (part_005 lines 116-118). -/
def resolveDest (getName : String → String) (r : L80Result) : L80Result :=
  if r.destICAO ≠ "" then { r with destName := getName r.destICAO } else r

/-- Airport-name resolution shared by the two header cases (part_005
lines 113-118 and 133-139): fill `originName`/`destName` from the
lookup when the ICAO codes are non-empty. -/
def resolveNames (getName : String → String) (r : L80Result) : L80Result :=
  resolveDest getName
    (if r.originICAO ≠ "" then { r with originName := getName r.originICAO } else r)

/-- Flight-number heuristic of the header case (part_005 lines
120-123). -/
def headerFlight (m : Match) (r : L80Result) : L80Result :=
  if isLikelyFlight (goTrimSpace (capt m "hdr1")) then
    { r with flightNum := goTrimSpace (capt m "hdr1") }
  else r

/-- The `header_format` case of the match loop (part_005 lines
106-124). -/
def headerCase (getName : String → String) (m : Match) (r : L80Result) : L80Result :=
  headerFlight m
    (resolveNames getName
      { r with msgType := capt m "msg_type", originICAO := capt m "origin",
               destICAO := capt m "dest", tail := goTrimPre (capt m "tail") "." })

/-- The `alt_format` case of the match loop (part_005 lines 126-142),
reached only when no header was seen yet. -/
def altCase (getName : String → String) (m : Match) (r : L80Result) : L80Result :=
  resolveNames getName
    { r with flightNum := capt m "flight", originICAO := capt m "origin",
             destICAO := capt m "dest", msgType := "FLT" }

/-- Wind-speed half of the `wind` case (part_005 lines 187-191). -/
def windSpeedPart (m : Match) (r : L80Result) : L80Result :=
  match atoi (capt m "wspd") with
  | some spd => { r with windSpeedKts := spd, windSpeedKmh := windKmhOfKts spd }
  | none => r

/-- The `wind` case of the match loop (part_005 lines 179-191). -/
def windCase (m : Match) (r : L80Result) : L80Result :=
  windSpeedPart m
    (match atoi (capt m "wdir") with
     | some d => { r with windDir := windDirNorm d }
     | none => r)

/-- The result component of one iteration of the `ParseAll` match loop
of `label80.Parser.Parse` (part_005 lines 104-210).  `getName` stands
for `airports.GetName` (read-only lookup, out of the specified scope);
`fh` is the `foundHeader` flag on entry, consulted by the `alt_format`
case. -/
def processRes (getName : String → String) (r : L80Result) (fh : Bool) (m : Match) :
    L80Result :=
  if m.formatName = "header_format" then headerCase getName m r
  else if m.formatName = "alt_format" then
    if fh then r else altCase getName m r
  else if m.formatName = "position" then
    { r with latitude := parseLabel80Coord (capt m "lat") (capt m "lat_dir"),
             longitude := parseLabel80Coord (capt m "lon") (capt m "lon_dir") }
  else if m.formatName = "altitude" then
    match label80Altitude (capt m "altitude") with
    | some alt => { r with altitude := alt }
    | none => r
  else if m.formatName = "mach" then { r with mach := capt m "mach" }
  else if m.formatName = "tas" then
    match atoi (capt m "tas") with
    | some t => { r with tas := t }
    | none => r
  else if m.formatName = "fob" then
    match atoi (capt m "fob") with
    | some f => { r with fuelOnBoard := f }
    | none => r
  else if m.formatName = "eta" then { r with eta := capt m "eta" }
  else if m.formatName = "tme" then
    (if formatHHMM (capt m "tme") ≠ "" then { r with reportTime := formatHHMM (capt m "tme") }
     else r)
  else if m.formatName = "wind" then windCase m r
  else if m.formatName = "oat" then
    match atoi (capt m "oat") with
    | some t => { r with oatc := t }
    | none => r
  else if m.formatName = "out_time" then { r with outTime := capt m "out" }
  else if m.formatName = "off_time" then { r with offTime := capt m "off" }
  else if m.formatName = "on_time" then { r with onTime := capt m "on" }
  else if m.formatName = "in_time" then { r with inTime := capt m "in" }
  else r

/-- The `foundHeader` component of one loop iteration: the two
header-bearing cases leave the flag true (the `header_format` case sets
it unconditionally; the `alt_format` case either finds it already true
or sets it), every other case keeps it. -/
def processFound (fh : Bool) (m : Match) : Bool :=
  if m.formatName = "header_format" ∨ m.formatName = "alt_format" then true else fh

/-- One iteration of the match loop: result and flag. -/
def processMatch (getName : String → String) (st : L80Result × Bool) (m : Match) :
    L80Result × Bool :=
  (processRes getName st.1 st.2 m, processFound st.2 m)

/-- The empty Label 80 result seeded by `Parse` (part_005 lines 92-96). -/
def l80Init (msg : GoMsg) : L80Result :=
  { msgID := msg.id, timestamp := msg.timestamp, tail := msg.tail,
    msgType := "", flightNum := "", originICAO := "", originName := "",
    destICAO := "", destName := "", latitude := 0, longitude := 0, altitude := 0,
    mach := "", tas := 0, fuelOnBoard := 0, eta := "", reportTime := "",
    windDir := 0, windSpeedKts := 0, windSpeedKmh := 0, oatc := 0,
    outTime := "", offTime := "", onTime := "", inTime := "" }

/-- `label80.Parser.Parse` (part_005 lines 79-218).  The list `matches`
stands for `compiler.ParseAll(text)`; the compiler itself is absent
from src/ and its output is quantified over. -/
def l80Finish (st : L80Result × Bool) : Option L80Result :=
  if st.2 then some st.1 else none

/-- `label80.Parser.Parse` (part_005 lines 79-218).  The list `ms`
stands for `compiler.ParseAll(text)`; the compiler itself is absent
from src/ and its output is quantified over. -/
def label80Parse (getName : String → String) (msg : GoMsg) (ms : List Match) :
    Option L80Result :=
  if msg.text = "" then none
  else l80Finish (ms.foldl (processMatch getName) (l80Init msg, false))

/-- Modelled from the spec: the envelope catch-all result (§4.4.8,
package absent from src/) — a minimal record echoing label, tail and
raw text, carrying the message id like every `Result`. -/
structure EnvResult where
  msgID : Int
  label : String
  tail : String
  text : String
deriving DecidableEq, Repr

/-- Modelled from the spec: the envelope parser never returns nothing
(§4.4.8). -/
def envelopeParse (msg : GoMsg) : EnvResult :=
  { msgID := msg.id, label := msg.label, tail := msg.tail, text := msg.text }

/-- Result union over the decoders embedded here. -/
inductive DispatchedResult where
  | fstR (r : FstResult)
  | posR (r : L80Result)
  | envR (r : EnvResult)
deriving DecidableEq, Repr

/-- `MessageID()` of the common `Result` contract. -/
def DispatchedResult.messageId : DispatchedResult → Int
  | .fstR r => r.msgID
  | .posR r => r.msgID
  | .envR r => r.msgID

/-- Modelled from the spec: `Registry.dispatch_first` (§4.3; the
registry package is absent from src/), restricted to the decoders
embedded in this development — label-matched parsers (FST for "15",
Label 80 for "80", each with its `QuickCheck` from the source), then
the envelope catch-all, returning the first non-empty result.  `ms`
stands for the Label 80 compiler's `ParseAll` output on the message
text. -/
def dispatchFirst (getName : String → String) (ms : List Match) (msg : GoMsg) :
    DispatchedResult :=
  if msg.label = "15" ∧ fstQuickCheck msg.text then
    match fstParse msg with
    | some r => .fstR r
    | none => .envR (envelopeParse msg)
  else if msg.label = "80" then
    match label80Parse getName msg ms with
    | some r => .posR r
    | none => .envR (envelopeParse msg)
  else .envR (envelopeParse msg)

/-- The claim's reading of the 6-digit coordinate disambiguation, as a
function of the six digit values (claim C1 as amended: a zero `DDMMTT`
degree field yields the parser's 0 sentinel). -/
def claimCoordSix (d0 d1 d2 d3 d4 d5 : Nat) : ℚ :=
  let deg2 := 10 * d0 + d1
  let mw := 10 * d2 + d3
  let mh := 10 * d4 + d5
  let deg3 := 100 * d0 + 10 * d1 + d2
  if mw < 60 then
    (if deg2 = 0 then 0 else (deg2 : ℚ) + ((mw * 100 + mh : Nat) : ℚ) / 6000)
  else if deg2 ≤ 90 then (deg2 : ℚ) + ((mw * 100 + mh : Nat) : ℚ) / 10000
  else if 90 < deg3 ∧ deg3 ≤ 180 then
    (deg3 : ℚ) + (((10 * d3 + d4) * 10 + d5 : Nat) : ℚ) / 600
  else 0

/-- Speed-related output fields: ground speed, IAS, unit, type. -/
structure SpeedFields where
  gs : Int
  ias : Int
  unit : String
  stype : String
deriving DecidableEq, Repr

/-- The claim's classification of the speed token (claim C2 as
amended), as a function of the token `p1` and the following token:
a 7-digit value above 1,000,000 splits into IAS(3)+km/h(4); otherwise a
value above 1000 in a token of more than 4 characters keeps only its
first 3 digits as IAS; 700..1000 is km/h ground speed; 350..699 is
knots ground speed; 100..349 is IAS in knots, supplemented by the next
token as ground speed when that token is in 100..999 (km/h from 700 up,
knots below); every other positive value is knots ground speed. -/
def claimSpeedClassify (p1 : String) (next : Option String) : SpeedFields :=
  match atoi p1 with
  | none => ⟨0, 0, "", ""⟩
  | some v =>
    if 0 < v then
      if p1.length = 7 ∧ 1000000 < v then
        match atoiL (sub p1.toList 0 3), atoiL (sub p1.toList 3 7) with
        | some i3, some k4 => ⟨k4, i3, "kmh", "IAS+KMH"⟩
        | some i3, none => ⟨0, i3, "", ""⟩
        | none, _ => ⟨0, 0, "", ""⟩
      else if 1000 < v ∧ 4 < p1.length then
        match atoiL (sub p1.toList 0 3) with
        | some i3 => ⟨0, i3, "", "IAS"⟩
        | none => ⟨0, 0, "", ""⟩
      else if 700 ≤ v ∧ v ≤ 1000 then ⟨v, 0, "kmh", "KMH"⟩
      else if 350 ≤ v ∧ v < 700 then ⟨v, 0, "knots", "GS"⟩
      else if 100 ≤ v ∧ v < 350 then
        match next.bind (fun p2 => atoi p2) with
        | some n =>
          if 100 ≤ n ∧ n < 1000 then
            if 700 ≤ n then ⟨n, v, "kmh", "IAS+KMH"⟩ else ⟨n, v, "knots", "IAS+GS"⟩
          else ⟨0, v, "", "IAS"⟩
        | none => ⟨0, v, "", "IAS"⟩
      else ⟨v, 0, "knots", "GS"⟩
    else ⟨0, 0, "", ""⟩

/-! ### Evaluation lemmas for the Go primitives -/

lemma toList_mk (l : List Char) : (String.mk l).toList = l := rfl

lemma digit_toNat {c : Char} (h : isDigitChar c = true) :
    48 ≤ c.toNat ∧ c.toNat ≤ 57 := by
  unfold isDigitChar at h
  simp only [Bool.and_eq_true, decide_eq_true_eq] at h
  exact h

lemma dval_le {c : Char} (h : isDigitChar c = true) : dval c ≤ 9 := by
  have := digit_toNat h
  unfold dval
  omega

lemma digit_ne_minus {c : Char} (h : isDigitChar c = true) : ¬(c = '-') := by
  intro he
  rw [he] at h
  exact absurd h (by decide)

lemma digit_ne_plus {c : Char} (h : isDigitChar c = true) : ¬(c = '+') := by
  intro he
  rw [he] at h
  exact absurd h (by decide)

lemma atoiNat_cons (c : Char) (l : List Char) :
    atoiNat (c :: l) = atoiNatAux 0 (c :: l) := rfl

lemma atoiNatAux_cons (acc : Nat) (c : Char) (l : List Char) :
    atoiNatAux acc (c :: l) =
      if isDigitChar c then atoiNatAux (acc * 10 + dval c) l else none := rfl

lemma atoiL_of_digit {c : Char} (l : List Char) (h : isDigitChar c = true) :
    atoiL (c :: l) =
      match atoiNat (c :: l) with
      | some n => if n ≤ 2 ^ 63 - 1 then some (n : Int) else none
      | none => none := by
  simp only [atoiL, if_neg (digit_ne_minus h), if_neg (digit_ne_plus h)]

lemma atoiL_digit1 {a : Char} (ha : isDigitChar a = true) :
    atoiL [a] = some ((dval a : Nat) : Int) := by
  have hva := dval_le ha
  rw [atoiL_of_digit [] ha]
  simp only [atoiNat_cons, atoiNatAux_cons, ha, if_true, atoiNatAux]
  rw [if_pos (by omega)]
  simp only [Option.some.injEq]
  omega

lemma atoiL_digit2 {a b : Char} (ha : isDigitChar a = true) (hb : isDigitChar b = true) :
    atoiL [a, b] = some ((10 * dval a + dval b : Nat) : Int) := by
  have hva := dval_le ha
  have hvb := dval_le hb
  rw [atoiL_of_digit [b] ha]
  simp only [atoiNat_cons, atoiNatAux_cons, ha, hb, if_true, atoiNatAux]
  rw [if_pos (by omega)]
  simp only [Option.some.injEq]
  omega

lemma atoiL_digit3 {a b c : Char} (ha : isDigitChar a = true) (hb : isDigitChar b = true)
    (hc : isDigitChar c = true) :
    atoiL [a, b, c] = some ((100 * dval a + 10 * dval b + dval c : Nat) : Int) := by
  have hva := dval_le ha
  have hvb := dval_le hb
  have hvc := dval_le hc
  rw [atoiL_of_digit [b, c] ha]
  simp only [atoiNat_cons, atoiNatAux_cons, ha, hb, hc, if_true, atoiNatAux]
  rw [if_pos (by omega)]
  simp only [Option.some.injEq]
  omega

lemma atoiL_digit4 {a b c d : Char} (ha : isDigitChar a = true) (hb : isDigitChar b = true)
    (hc : isDigitChar c = true) (hd : isDigitChar d = true) :
    atoiL [a, b, c, d] =
      some ((1000 * dval a + 100 * dval b + 10 * dval c + dval d : Nat) : Int) := by
  have hva := dval_le ha
  have hvb := dval_le hb
  have hvc := dval_le hc
  have hvd := dval_le hd
  rw [atoiL_of_digit [b, c, d] ha]
  simp only [atoiNat_cons, atoiNatAux_cons, ha, hb, hc, hd, if_true, atoiNatAux]
  rw [if_pos (by omega)]
  simp only [Option.some.injEq]
  omega

/-- Core evaluation of `parseCoord` on an arbitrary 6-digit string: the
code agrees with the amended claim-side decision tree `claimCoordSix`. -/
lemma coordSix_eval (c0 c1 c2 c3 c4 c5 : Char)
    (h0 : isDigitChar c0 = true) (h1 : isDigitChar c1 = true) (h2 : isDigitChar c2 = true)
    (h3 : isDigitChar c3 = true) (h4 : isDigitChar c4 = true) (h5 : isDigitChar c5 = true) :
    parseCoord ⟨[c0, c1, c2, c3, c4, c5]⟩ =
      claimCoordSix (dval c0) (dval c1) (dval c2) (dval c3) (dval c4) (dval c5) := by
  have b0 := dval_le h0
  have b1 := dval_le h1
  have b2 := dval_le h2
  have b3 := dval_le h3
  have b4 := dval_le h4
  have b5 := dval_le h5
  have hs1 : sub [c0, c1, c2, c3, c4, c5] 0 2 = [c0, c1] := rfl
  have hs2 : sub [c0, c1, c2, c3, c4, c5] 2 4 = [c2, c3] := rfl
  have hs3 : sub [c0, c1, c2, c3, c4, c5] 4 6 = [c4, c5] := rfl
  have hs4 : sub [c0, c1, c2, c3, c4, c5] 2 6 = [c2, c3, c4, c5] := rfl
  have hs5 : sub [c0, c1, c2, c3, c4, c5] 0 3 = [c0, c1, c2] := rfl
  have hs6 : sub [c0, c1, c2, c3, c4, c5] 3 5 = [c3, c4] := rfl
  have hs7 : sub [c0, c1, c2, c3, c4, c5] 5 6 = [c5] := rfl
  have hA : ((10 * dval c0 + dval c1 : Nat) : ℤ) ≤ 180 := by omega
  unfold parseCoord claimCoordSix
  simp only [toList_mk, List.length_cons, List.length_nil, hs1, hs2, hs3, hs4, hs5, hs6, hs7,
    atoiL_digit2 h0 h1, atoiL_digit2 h2 h3, atoiL_digit2 h4 h5,
    atoiL_digit4 h2 h3 h4 h5, atoiL_digit3 h0 h1 h2, atoiL_digit2 h3 h4, atoiL_digit1 h5]
  rw [if_neg (by norm_num : ¬(0 + 1 + 1 + 1 + 1 + 1 + 1 < 5)),
    if_neg (by norm_num : ¬(0 + 1 + 1 + 1 + 1 + 1 + 1 = 5)), if_pos trivial]
  by_cases hmw : (10 * dval c2 + dval c3 : Nat) < 60
  case pos =>
    have hMlt : ((((10 * dval c2 + dval c3 : Nat) : ℤ)) : ℚ) +
        ((((10 * dval c4 + dval c5 : Nat) : ℤ)) : ℚ) / 100 < 60 := by
      have l1 : ((((10 * dval c2 + dval c3 : Nat) : ℤ)) : ℚ) ≤ 59 := by
        exact_mod_cast (by omega : (10 * dval c2 + dval c3 : Nat) ≤ 59)
      have l2 : ((((10 * dval c4 + dval c5 : Nat) : ℤ)) : ℚ) ≤ 99 := by
        exact_mod_cast (by omega : (10 * dval c4 + dval c5 : Nat) ≤ 99)
      have l3 : (0 : ℚ) ≤ ((((10 * dval c4 + dval c5 : Nat) : ℤ)) : ℚ) := by positivity
      linarith
    rw [if_pos (And.intro hA hMlt), if_pos hmw]
    split
    case _ q fst snd heq => simp at heq
    case _ deg min heq =>
      rw [Prod.mk.injEq, Prod.mk.injEq] at heq
      obtain ⟨-, hdeg, hmin⟩ := heq
      subst hdeg
      subst hmin
      by_cases hz : (10 * dval c0 + dval c1 : Nat) = 0
      case pos =>
        have hzI : ((10 * dval c0 + dval c1 : Nat) : ℤ) = 0 := by exact_mod_cast hz
        have hno : ¬((90 : ℤ) < ((100 * dval c0 + 10 * dval c1 + dval c2 : Nat) : ℤ) ∧ ((100 * dval c0 + 10 * dval c1 + dval c2 : Nat) : ℤ) ≤ 180 ∧ ((((10 * dval c3 + dval c4 : Nat) : ℤ)) : ℚ) + ((((dval c5 : Nat) : ℤ)) : ℚ) / 10 < 60) := fun h => absurd h.1 (by omega)
        have hfst : ((((10 * dval c0 + dval c1 : Nat) : ℤ), ((((10 * dval c2 + dval c3 : Nat) : ℤ)) : ℚ) + ((((10 * dval c4 + dval c5 : Nat) : ℤ)) : ℚ) / 100)).1 = 0 := hzI
        rw [if_pos hz, if_pos hzI, if_neg hno, if_pos hfst]
      case neg =>
        have hzI : ¬((10 * dval c0 + dval c1 : Nat) : ℤ) = 0 := by
          intro h
          exact hz (by exact_mod_cast h)
        have hfstne : ¬(((((10 * dval c0 + dval c1 : Nat) : ℤ), ((((10 * dval c2 + dval c3 : Nat) : ℤ)) : ℚ) + ((((10 * dval c4 + dval c5 : Nat) : ℤ)) : ℚ) / 100)).1 = 0) := hzI
        have hsndlt : ¬(60 ≤ ((((10 * dval c0 + dval c1 : Nat) : ℤ), ((((10 * dval c2 + dval c3 : Nat) : ℤ)) : ℚ) + ((((10 * dval c4 + dval c5 : Nat) : ℤ)) : ℚ) / 100)).2) := not_le.mpr hMlt
        rw [if_neg hz, if_neg hzI, if_neg hfstne, if_neg hsndlt]
        push_cast
        ring
  case neg =>
    have hMge : 60 ≤ ((((10 * dval c2 + dval c3 : Nat) : ℤ)) : ℚ) +
        ((((10 * dval c4 + dval c5 : Nat) : ℤ)) : ℚ) / 100 := by
      have l1 : (60 : ℚ) ≤ ((((10 * dval c2 + dval c3 : Nat) : ℤ)) : ℚ) := by
        exact_mod_cast (by omega : (60 : Nat) ≤ 10 * dval c2 + dval c3)
      have l3 : (0 : ℚ) ≤ ((((10 * dval c4 + dval c5 : Nat) : ℤ)) : ℚ) := by positivity
      linarith
    rw [if_neg (fun h => absurd h.2 (not_lt.mpr hMge)), if_neg hmw]
    by_cases hd90 : (10 * dval c0 + dval c1 : Nat) ≤ 90
    case pos =>
      have hd90I : ((10 * dval c0 + dval c1 : Nat) : ℤ) ≤ 90 := by exact_mod_cast hd90
      rw [if_pos (And.intro hd90I hMge), if_pos hd90]
      split
      case _ q fst snd heq =>
        rw [Prod.mk.injEq, Prod.mk.injEq] at heq
        obtain ⟨hq, -, -⟩ := heq
        rw [Option.some.injEq] at hq
        rw [← hq]
        push_cast
        ring
      case _ deg min heq => simp at heq
    case neg =>
      have hd90I : ¬((10 * dval c0 + dval c1 : Nat) : ℤ) ≤ 90 := by
        intro h
        exact hd90 (by exact_mod_cast h)
      have hno1 : ¬(((10 * dval c0 + dval c1 : Nat) : ℤ) ≤ 90 ∧
          60 ≤ ((((10 * dval c2 + dval c3 : Nat) : ℤ)) : ℚ) +
            ((((10 * dval c4 + dval c5 : Nat) : ℤ)) : ℚ) / 100) :=
        fun h => absurd h.1 hd90I
      have hno2 : ¬(90 < (100 * dval c0 + 10 * dval c1 + dval c2 : Nat) ∧
          (100 * dval c0 + 10 * dval c1 + dval c2 : Nat) ≤ 180) :=
        fun h => absurd h.2 (by omega)
      rw [if_neg hno1, if_neg hno2]
      split
      case _ q fst snd heq => simp at heq
      case _ deg min heq =>
        rw [Prod.mk.injEq, Prod.mk.injEq] at heq
        obtain ⟨-, hdeg, hmin⟩ := heq
        subst hdeg
        subst hmin
        have hno3 : ¬((90 : ℤ) < ((100 * dval c0 + 10 * dval c1 + dval c2 : Nat) : ℤ) ∧ ((100 * dval c0 + 10 * dval c1 + dval c2 : Nat) : ℤ) ≤ 180 ∧ ((((10 * dval c3 + dval c4 : Nat) : ℤ)) : ℚ) + ((((dval c5 : Nat) : ℤ)) : ℚ) / 10 < 60) := fun h => absurd h.2.1 (by omega)
        rw [if_neg hno3]
        simp [hd90]

/-- Claim C1, counterexample: on "004512" (degrees "00", minutes
"45.12" < 60), the claim's first clause predicts 0 + 4512/6000, but
`parseCoord` returns the 0 sentinel. -/
theorem C1_counterexample :
    parseCoord ⟨['0', '0', '4', '5', '1', '2']⟩ = 0 ∧ ((0 : ℚ) + 4512 / 6000 ≠ 0) := by
  constructor
  · rw [coordSix_eval '0' '0' '4' '5' '1' '2' rfl rfl rfl rfl rfl rfl]
    simp only [show dval '0' = 0 from rfl, show dval '4' = 4 from rfl,
      show dval '5' = 5 from rfl, show dval '1' = 1 from rfl, show dval '2' = 2 from rfl]
    norm_num [claimCoordSix]
  · norm_num

/-- Claim C1 (amended): for every 6-digit coordinate string,
`parseCoord` applies the disambiguation order — `DDMMTT` first
(yielding deg + (min*100 + hundredths)/6000), the `DD.DDDD` decimal
reading when the minute-whole field is ≥ 60 and the degrees are ≤ 90
(yielding deg + last4/10000), then `DDDMMD` for a 3-digit degree in
(90, 180] — except that a zero `DDMMTT` degree field yields 0, the
parser's unparsed sentinel. -/
theorem C1_sixDigit_disambiguation (c0 c1 c2 c3 c4 c5 : Char)
    (h0 : isDigitChar c0 = true) (h1 : isDigitChar c1 = true) (h2 : isDigitChar c2 = true)
    (h3 : isDigitChar c3 = true) (h4 : isDigitChar c4 = true) (h5 : isDigitChar c5 = true) :
    parseCoord ⟨[c0, c1, c2, c3, c4, c5]⟩ =
      claimCoordSix (dval c0) (dval c1) (dval c2) (dval c3) (dval c4) (dval c5) :=
  coordSix_eval c0 c1 c2 c3 c4 c5 h0 h1 h2 h3 h4 h5

/-- Witness for C1 at "452140": 45° 21.40' = 13607/300 ≈ 45.3567. -/
theorem C1_sixDigit_disambiguation_witness :
    parseCoord ⟨['4', '5', '2', '1', '4', '0']⟩ = claimCoordSix 4 5 2 1 4 0 ∧
      claimCoordSix 4 5 2 1 4 0 = 13607 / 300 := by
  constructor
  · exact C1_sixDigit_disambiguation '4' '5' '2' '1' '4' '0' rfl rfl rfl rfl rfl rfl
  · norm_num [claimCoordSix]

/-- Core evaluation of `parseCoord` on an arbitrary 7-digit string. -/
lemma coordSeven_eval (c0 c1 c2 c3 c4 c5 c6 : Char)
    (h0 : isDigitChar c0 = true) (h1 : isDigitChar c1 = true) (h2 : isDigitChar c2 = true)
    (h3 : isDigitChar c3 = true) (h4 : isDigitChar c4 = true) (h5 : isDigitChar c5 = true)
    (h6 : isDigitChar c6 = true) :
    parseCoord ⟨[c0, c1, c2, c3, c4, c5, c6]⟩ =
      if (100 * dval c0 + 10 * dval c1 + dval c2 : Nat) ≤ 180 then
        ((100 * dval c0 + 10 * dval c1 + dval c2 : Nat) : ℚ) +
          ((1000 * dval c3 + 100 * dval c4 + 10 * dval c5 + dval c6 : Nat) : ℚ) / 10000
      else 0 := by
  have hs1 : sub [c0, c1, c2, c3, c4, c5, c6] 0 3 = [c0, c1, c2] := rfl
  have hs2 : sub [c0, c1, c2, c3, c4, c5, c6] 3 7 = [c3, c4, c5, c6] := rfl
  unfold parseCoord
  simp only [toList_mk, List.length_cons, List.length_nil, hs1, hs2,
    atoiL_digit3 h0 h1 h2, atoiL_digit4 h3 h4 h5 h6]
  norm_num
  by_cases hd : (100 * dval c0 + 10 * dval c1 + dval c2 : Nat) ≤ 180
  case pos =>
    rw [if_neg (by exact_mod_cast Nat.not_lt.mpr hd), if_pos hd]
  case neg =>
    rw [if_pos (by exact_mod_cast Nat.lt_of_not_le hd), if_neg hd]

/-- Claim C8: a 7-digit coordinate is pure decimal degrees — 3-digit
degrees plus a 4-digit fraction of a degree — when the degree value is
at most 180, and 0 otherwise. -/
theorem C8_sevenDigit_decimal (c0 c1 c2 c3 c4 c5 c6 : Char)
    (h0 : isDigitChar c0 = true) (h1 : isDigitChar c1 = true) (h2 : isDigitChar c2 = true)
    (h3 : isDigitChar c3 = true) (h4 : isDigitChar c4 = true) (h5 : isDigitChar c5 = true)
    (h6 : isDigitChar c6 = true) :
    parseCoord ⟨[c0, c1, c2, c3, c4, c5, c6]⟩ =
      if (100 * dval c0 + 10 * dval c1 + dval c2 : Nat) ≤ 180 then
        ((100 * dval c0 + 10 * dval c1 + dval c2 : Nat) : ℚ) +
          ((1000 * dval c3 + 100 * dval c4 + 10 * dval c5 + dval c6 : Nat) : ℚ) / 10000
      else 0 :=
  coordSeven_eval c0 c1 c2 c3 c4 c5 c6 h0 h1 h2 h3 h4 h5 h6

/-- Witness for C8 at "0249275": 024.9275° exactly. -/
theorem C8_sevenDigit_decimal_witness :
    parseCoord ⟨['0', '2', '4', '9', '2', '7', '5']⟩ = 24 + 9275 / 10000 := by
  have h := C8_sevenDigit_decimal '0' '2' '4' '9' '2' '7' '5' rfl rfl rfl rfl rfl rfl rfl
  rw [h]
  simp only [show dval '0' = 0 from rfl, show dval '2' = 2 from rfl,
    show dval '4' = 4 from rfl, show dval '9' = 9 from rfl, show dval '7' = 7 from rfl,
    show dval '5' = 5 from rfl]
  norm_num

/-- Claim C10: a 6-digit coordinate whose degree field is "00" and
whose minutes field is valid (below 60) resolves to the zero degree
value, which `parseCoord` returns as the unparsed sentinel 0 instead of
the encoded fraction of a degree. -/
theorem C10_zeroDegree_sentinel (c2 c3 c4 c5 : Char)
    (h2 : isDigitChar c2 = true) (h3 : isDigitChar c3 = true) (h4 : isDigitChar c4 = true)
    (h5 : isDigitChar c5 = true) (hmw : 10 * dval c2 + dval c3 < 60) :
    parseCoord ⟨['0', '0', c2, c3, c4, c5]⟩ = 0 := by
  rw [coordSix_eval '0' '0' c2 c3 c4 c5 rfl rfl h2 h3 h4 h5]
  simp [claimCoordSix, dval, hmw]
  intro h
  exact absurd h (by unfold dval at hmw; omega)

/-- Witness for C10 at "004512". -/
theorem C10_zeroDegree_sentinel_witness : parseCoord ⟨['0', '0', '4', '5', '1', '2']⟩ = 0 :=
  C10_zeroDegree_sentinel '4' '5' '1' '2' rfl rfl rfl rfl (by decide)


/-- The Label 15 end-to-end example message of the spec (§8 scenario 2). -/
def msgC4 : GoMsg :=
  { id := 1, timestamp := "", label := "15", tail := "",
    text := "FST01EGLLWSSSN452140E0249275330 854 242 M54C 6235410711950911600009590004" }

/-- The Result expected for `msgC4`: 45° 21.40' = 13607/300 latitude,
024.9275° = 9971/400 longitude. -/
def resC4 : FstResult :=
  { msgID := 1, timestamp := "", tail := "", sequence := "01", origin := "EGLL",
    destination := "WSSS", latitude := 13607 / 300, longitude := 9971 / 400,
    flightLevel := 330, groundSpeed := 854, speedUnit := "kmh", ias := 0, tas := 0,
    speedType := "KMH", temperature := -54, windSpeed := 62, windDirection := 354,
    rawData := "330 854 242 M54C 6235410711950911600009590004" }

/-- Claim C4: parsing the spec's Label 15 example produces origin EGLL,
destination WSSS, latitude ≈ 45.3567, longitude ≈ 24.9275, flight level
330, ground speed 854 km/h typed KMH, temperature −54 and wind
62 kt @ 354°. -/
theorem C4_fst_example :
    fstParse msgC4 = some resC4 ∧
      |resC4.latitude - 45.3567| < 1 / 1000 ∧ |resC4.longitude - 24.9275| < 1 / 1000 := by
  have hlat : parseCoord "452140" = 13607 / 300 := by
    rw [show ("452140" : String) = ⟨['4', '5', '2', '1', '4', '0']⟩ from rfl,
      coordSix_eval '4' '5' '2' '1' '4' '0' rfl rfl rfl rfl rfl rfl]
    simp only [show dval '4' = 4 from rfl, show dval '5' = 5 from rfl,
      show dval '2' = 2 from rfl, show dval '1' = 1 from rfl, show dval '0' = 0 from rfl]
    norm_num [claimCoordSix]
  have hlon : parseCoord "0249275" = 9971 / 400 := by
    rw [show ("0249275" : String) = ⟨['0', '2', '4', '9', '2', '7', '5']⟩ from rfl,
      coordSeven_eval '0' '2' '4' '9' '2' '7' '5' rfl rfl rfl rfl rfl rfl rfl]
    simp only [show dval '0' = 0 from rfl, show dval '2' = 2 from rfl,
      show dval '4' = 4 from rfl, show dval '9' = 9 from rfl, show dval '7' = 7 from rfl,
      show dval '5' = 5 from rfl]
    norm_num
  have hstep : fstParse msgC4 = some
      { msgID := 1, timestamp := "", tail := "", sequence := "01", origin := "EGLL",
        destination := "WSSS", latitude := parseCoord "452140",
        longitude := parseCoord "0249275", flightLevel := 330, groundSpeed := 854,
        speedUnit := "kmh", ias := 0, tas := 0, speedType := "KMH", temperature := -54,
        windSpeed := 62, windDirection := 354,
        rawData := "330 854 242 M54C 6235410711950911600009590004" } := rfl
  refine ⟨?_, by norm_num [resC4, abs_lt], by norm_num [resC4, abs_lt]⟩
  rw [hstep, hlat, hlon]
  rfl

lemma digit_not_space {c : Char} (h : isDigitChar c = true) : isSpaceChar c = false := by
  have hb := digit_toNat h
  have h32 : ¬(c = ' ') := fun he => absurd hb.1 (by rw [he]; decide)
  have h9 : ¬(c = '\t') := fun he => absurd hb.1 (by rw [he]; decide)
  have h10 : ¬(c = '\n') := fun he => absurd hb.1 (by rw [he]; decide)
  have h13 : ¬(c = '\r') := fun he => absurd hb.1 (by rw [he]; decide)
  have n11 : ¬(c.toNat = 11) := by omega
  have n12 : ¬(c.toNat = 12) := by omega
  have n133 : ¬(c.toNat = 133) := by omega
  have n160 : ¬(c.toNat = 160) := by omega
  unfold isSpaceChar
  rw [decide_eq_false h32, decide_eq_false h9, decide_eq_false h10, decide_eq_false h13,
    decide_eq_false n11, decide_eq_false n12, decide_eq_false n133, decide_eq_false n160]
  rfl

lemma dropWhile_space_digits : ∀ l : List Char, l.all isDigitChar = true →
    l.dropWhile isSpaceChar = l
  | [], _ => rfl
  | c :: cs, h => by
    have hc : isDigitChar c = true := by
      simp only [List.all_cons, Bool.and_eq_true] at h
      exact h.1
    simp [List.dropWhile_cons, digit_not_space hc]

lemma goTrimSpace_digits {s : String} (h : s.toList.all isDigitChar = true) :
    goTrimSpace s = s := by
  unfold goTrimSpace
  rw [dropWhile_space_digits _ h]
  rw [dropWhile_space_digits _ (by simpa using h)]
  simp [String.ext_iff]
lemma goDiv_nonneg {a b : ℤ} (ha : 0 ≤ a) (hb : 0 ≤ b) :
    goDiv a b = ((a.natAbs / b.natAbs : ℕ) : ℤ) := by
  unfold goDiv
  rw [if_pos (Or.inl ⟨ha, hb⟩)]

lemma goDiv_eq_ediv {a b : ℤ} (ha : 0 ≤ a) (hb : 0 ≤ b) : goDiv a b = a / b := by
  rw [goDiv_nonneg ha hb]
  conv_rhs => rw [← Int.natAbs_of_nonneg ha, ← Int.natAbs_of_nonneg hb]
  norm_cast

/-- Claim C6: the Label 80 wind conversion (kts*1852 + 500)/1000 equals
round(kts * 1.852) for every non-negative knot value, and is
monotonically non-decreasing. -/
theorem C6_wind_conversion : ∀ k : ℤ, 0 ≤ k →
    windKmhOfKts k = round ((k : ℚ) * 1.852) ∧
    ∀ j : ℤ, 0 ≤ j → j ≤ k → windKmhOfKts j ≤ windKmhOfKts k := by
  intro k hk
  constructor
  · unfold windKmhOfKts
    rw [round_eq]
    have hcast : (k : ℚ) * 1.852 + 1 / 2 = ((k * 1852 + 500 : ℤ) : ℚ) / ((1000 : ℕ) : ℚ) := by
      push_cast
      norm_num
      ring
    rw [hcast, Rat.floor_intCast_div_natCast]
    rw [goDiv_eq_ediv (by omega) (by omega)]
    norm_num
  · intro j hj hjk
    unfold windKmhOfKts
    rw [goDiv_nonneg (by omega) (by omega), goDiv_nonneg (by omega) (by omega)]
    have hmono : (j * 1852 + 500).natAbs ≤ (k * 1852 + 500).natAbs := by
      have h1 : j * 1852 ≤ k * 1852 := by nlinarith
      omega
    exact_mod_cast Nat.div_le_div_right hmono


/-- Witness for C6 at 62 kt: 62 * 1.852 = 114.824 rounds to 115. -/
theorem C6_wind_conversion_witness :
    windKmhOfKts 62 = round ((62 : ℚ) * 1.852) ∧ windKmhOfKts 0 ≤ windKmhOfKts 62 :=
  ⟨(C6_wind_conversion 62 (by decide)).1,
    (C6_wind_conversion 62 (by decide)).2 0 (by decide) (by decide)⟩

/-- Claim C7, counterexample: the altitude token "600" is parsed as
600 ft, not rescaled to 60000 ft — the flight-level cutoff is 500. -/
theorem C7_counterexample :
    label80Altitude "600" = some 600 ∧ label80Altitude "600" ≠ some 60000 := by
  constructor
  · decide
  · decide

/-- Claim C7 (amended): "350" → 35000 ft, "35000" → 35000 ft,
"501" → 501 ft, and "600" → 600 ft (not rescaled, being above the 500
cutoff); in general a bare 1-3-digit token whose value is positive and
at most 500 is a flight level scaled by 100, and every other numeric
token is kept as feet. -/
theorem C7_altitude_heuristic :
    label80Altitude "350" = some 35000 ∧ label80Altitude "35000" = some 35000 ∧
    label80Altitude "600" = some 600 ∧ label80Altitude "501" = some 501 ∧
    (∀ (s : String) (v : ℤ), s.toList.all isDigitChar = true → atoi s = some v →
      s.length ≤ 3 → 0 < v → v ≤ 500 → label80Altitude s = some (v * 100)) ∧
    (∀ (s : String) (v : ℤ), s.toList.all isDigitChar = true → atoi s = some v →
      3 < s.length ∨ 500 < v ∨ v ≤ 0 → label80Altitude s = some v) := by
  refine ⟨by decide, by decide, by decide, by decide, ?_, ?_⟩
  · intro s v hd ha hlen hpos hle
    unfold label80Altitude
    rw [goTrimSpace_digits hd]
    simp only [ha]
    rw [if_pos ⟨hlen, hpos, hle⟩]
  · intro s v hd ha hother
    unfold label80Altitude
    rw [goTrimSpace_digits hd]
    simp only [ha]
    rw [if_neg ?_]
    intro hcond
    rcases hother with h | h | h
    · omega
    · omega
    · omega

/-- Witness for C7's general rules at "4" (flight level) and "5000"
(plain feet). -/
theorem C7_altitude_heuristic_witness :
    label80Altitude "4" = some 400 ∧ label80Altitude "5000" = some 5000 := by
  constructor
  · exact C7_altitude_heuristic.2.2.2.2.1 "4" 4 (by decide) (by decide) (by decide)
      (by decide) (by decide)
  · exact C7_altitude_heuristic.2.2.2.2.2 "5000" 5000 (by decide) (by decide)
      (Or.inl (by decide))

/-! ### Effect lemmas: which fields each decoding step can touch -/

lemma flStep_eff (p : List String) (r : FstResult) :
    (flStep p r).msgID = r.msgID ∧ (flStep p r).groundSpeed = r.groundSpeed ∧
    (flStep p r).ias = r.ias ∧ (flStep p r).speedUnit = r.speedUnit ∧
    (flStep p r).speedType = r.speedType ∧ (flStep p r).temperature = r.temperature ∧
    (flStep p r).windSpeed = r.windSpeed ∧ (flStep p r).windDirection = r.windDirection := by
  unfold flStep
  split <;> try simp
  split <;> try simp
  split <;> simp

lemma speedStep_eff (p : List String) (r : FstResult) :
    (speedStep p r).msgID = r.msgID ∧ (speedStep p r).flightLevel = r.flightLevel ∧
    (speedStep p r).temperature = r.temperature ∧
    (speedStep p r).windSpeed = r.windSpeed ∧
    (speedStep p r).windDirection = r.windDirection := by
  unfold speedStep
  split <;> try simp
  split <;> try simp
  split_ifs <;> try simp
  all_goals (repeat' split) <;> simp

lemma windStep_eff (w : String) (r : FstResult) :
    (windStep w r).msgID = r.msgID ∧ (windStep w r).flightLevel = r.flightLevel ∧
    (windStep w r).groundSpeed = r.groundSpeed ∧ (windStep w r).ias = r.ias ∧
    (windStep w r).speedUnit = r.speedUnit ∧ (windStep w r).speedType = r.speedType ∧
    (windStep w r).temperature = r.temperature := by
  unfold windStep
  (repeat' split) <;> try simp
  all_goals ((repeat' split) <;> try simp)

lemma tempWindScan_eff : ∀ (ps : List String) (r : FstResult),
    (tempWindScan ps r).msgID = r.msgID ∧
    (tempWindScan ps r).flightLevel = r.flightLevel ∧
    (tempWindScan ps r).groundSpeed = r.groundSpeed ∧
    (tempWindScan ps r).ias = r.ias ∧
    (tempWindScan ps r).speedUnit = r.speedUnit ∧
    (tempWindScan ps r).speedType = r.speedType
  | [], r => by simp [tempWindScan]
  | p :: rest, r => by
    unfold tempWindScan
    cases htm : tempMatch p with
    | none =>
      simp only [htm]
      exact tempWindScan_eff rest r
    | some pr =>
      obtain ⟨sign, digits⟩ := pr
      simp only [htm]
      cases hat : atoi digits with
      | none =>
        simp only [hat]
        exact tempWindScan_eff rest r
      | some t =>
        simp only [hat]
        cases rest with
        | nil => simp
        | cons w tl =>
          have hws := windStep_eff w { r with temperature := if sign = 'M' then -t else t }
          simp only []
          exact ⟨hws.1, hws.2.1, hws.2.2.1, hws.2.2.2.1, hws.2.2.2.2.1, hws.2.2.2.2.2.1⟩

lemma windDirNorm_bounds (d : ℤ) : 0 ≤ windDirNorm d ∧ windDirNorm d < 360 := by
  have h360 : (360 : ℤ).natAbs = 360 := rfl
  have hqr := Nat.div_add_mod d.natAbs 360
  have hrlt : d.natAbs % 360 < 360 := Nat.mod_lt _ (by norm_num)
  by_cases hd : 0 ≤ d
  · have hg : goDiv d 360 = ((d.natAbs / 360 : ℕ) : ℤ) := by
      unfold goDiv
      rw [if_pos (Or.inl ⟨hd, by norm_num⟩), h360]
    unfold windDirNorm goMod
    simp only [hg]
    constructor <;> split <;> omega
  · have hg : goDiv d 360 = -((d.natAbs / 360 : ℕ) : ℤ) := by
      unfold goDiv
      rw [if_neg (by
        intro hor
        rcases hor with ⟨h1, -⟩ | ⟨-, h2⟩
        · exact hd h1
        · exact absurd h2 (by norm_num)), h360]
    unfold windDirNorm goMod
    simp only [hg]
    constructor <;> split <;> omega

lemma windStep_dirBound (w : String) (r : FstResult) (h0 : 0 ≤ r.windDirection)
    (h1 : r.windDirection ≤ 360) :
    0 ≤ (windStep w r).windDirection ∧ (windStep w r).windDirection ≤ 360 := by
  unfold windStep
  (repeat' split) <;> try simp
  all_goals ((repeat' split) <;> try simp)
  all_goals omega

lemma tempWindScan_dirBound : ∀ (ps : List String) (r : FstResult),
    0 ≤ r.windDirection → r.windDirection ≤ 360 →
    0 ≤ (tempWindScan ps r).windDirection ∧ (tempWindScan ps r).windDirection ≤ 360
  | [], r, h0, h1 => by simpa [tempWindScan] using ⟨h0, h1⟩
  | p :: rest, r, h0, h1 => by
    unfold tempWindScan
    cases htm : tempMatch p with
    | none =>
      simp only [htm]
      exact tempWindScan_dirBound rest r h0 h1
    | some pr =>
      obtain ⟨sign, digits⟩ := pr
      simp only [htm]
      cases hat : atoi digits with
      | none =>
        simp only [hat]
        exact tempWindScan_dirBound rest r h0 h1
      | some t =>
        simp only [hat]
        cases rest with
        | nil => simpa using ⟨h0, h1⟩
        | cons w tl =>
          simp only []
          exact windStep_dirBound w _ h0 h1

lemma resolveDest_eff (g : String → String) (r : L80Result) :
    (resolveDest g r).msgID = r.msgID ∧ (resolveDest g r).windDir = r.windDir := by
  unfold resolveDest
  split_ifs <;> exact ⟨rfl, rfl⟩

lemma resolveNames_eff (g : String → String) (r : L80Result) :
    (resolveNames g r).msgID = r.msgID ∧ (resolveNames g r).windDir = r.windDir := by
  unfold resolveNames
  obtain ⟨h1, h2⟩ := resolveDest_eff g
    (if r.originICAO ≠ "" then { r with originName := g r.originICAO } else r)
  rw [h1, h2]
  split_ifs <;> exact ⟨rfl, rfl⟩

lemma headerCase_eff (g : String → String) (m : Match) (r : L80Result) :
    (headerCase g m r).msgID = r.msgID ∧ (headerCase g m r).windDir = r.windDir := by
  unfold headerCase headerFlight
  have hr := resolveNames_eff g
    { r with msgType := capt m "msg_type", originICAO := capt m "origin",
             destICAO := capt m "dest", tail := goTrimPre (capt m "tail") "." }
  constructor
  · split_ifs <;> exact hr.1
  · split_ifs <;> exact hr.2

lemma altCase_eff (g : String → String) (m : Match) (r : L80Result) :
    (altCase g m r).msgID = r.msgID ∧ (altCase g m r).windDir = r.windDir := by
  unfold altCase
  have hr := resolveNames_eff g
    { r with flightNum := capt m "flight", originICAO := capt m "origin",
             destICAO := capt m "dest", msgType := "FLT" }
  exact ⟨hr.1, hr.2⟩

lemma windCase_eff (m : Match) (r : L80Result) :
    (windCase m r).msgID = r.msgID ∧
    (0 ≤ r.windDir → r.windDir < 360 →
      0 ≤ (windCase m r).windDir ∧ (windCase m r).windDir < 360) := by
  unfold windCase windSpeedPart
  constructor
  · (repeat' split) <;> rfl
  · intro h0 h1
    (repeat' split) <;> first | exact ⟨h0, h1⟩ | exact windDirNorm_bounds _

lemma processFound_eq (fh : Bool) (m : Match) :
    processFound fh m =
      (fh || (m.formatName == "header_format" || m.formatName == "alt_format")) := by
  unfold processFound
  split_ifs with h
  · rcases h with h | h <;> rw [h] <;> simp
  · push_neg at h
    have h1 : (m.formatName == "header_format") = false := by simp [h.1]
    have h2 : (m.formatName == "alt_format") = false := by simp [h.2]
    rw [h1, h2]
    simp

lemma processRes_eff (g : String → String) (r : L80Result) (fh : Bool) (m : Match) :
    (processRes g r fh m).msgID = r.msgID ∧
    (0 ≤ r.windDir → r.windDir < 360 →
      0 ≤ (processRes g r fh m).windDir ∧ (processRes g r fh m).windDir < 360) := by
  unfold processRes
  by_cases h1 : m.formatName = "header_format"
  · rw [if_pos h1]
    exact ⟨(headerCase_eff g m r).1,
      fun a b => by rw [(headerCase_eff g m r).2]; exact ⟨a, b⟩⟩
  rw [if_neg h1]
  by_cases h2 : m.formatName = "alt_format"
  · rw [if_pos h2]
    cases fh
    · rw [if_neg (by decide : ¬(false = true))]
      exact ⟨(altCase_eff g m r).1,
        fun a b => by rw [(altCase_eff g m r).2]; exact ⟨a, b⟩⟩
    · rw [if_pos rfl]
      exact ⟨rfl, fun a b => ⟨a, b⟩⟩
  rw [if_neg h2]
  by_cases h3 : m.formatName = "position"
  · rw [if_pos h3]
    exact ⟨rfl, fun a b => ⟨a, b⟩⟩
  rw [if_neg h3]
  by_cases h4 : m.formatName = "altitude"
  · rw [if_pos h4]
    cases h : label80Altitude (capt m "altitude") <;>
      exact ⟨rfl, fun a b => ⟨a, b⟩⟩
  rw [if_neg h4]
  by_cases h5 : m.formatName = "mach"
  · rw [if_pos h5]
    exact ⟨rfl, fun a b => ⟨a, b⟩⟩
  rw [if_neg h5]
  by_cases h6 : m.formatName = "tas"
  · rw [if_pos h6]
    cases h : atoi (capt m "tas") <;> exact ⟨rfl, fun a b => ⟨a, b⟩⟩
  rw [if_neg h6]
  by_cases h7 : m.formatName = "fob"
  · rw [if_pos h7]
    cases h : atoi (capt m "fob") <;> exact ⟨rfl, fun a b => ⟨a, b⟩⟩
  rw [if_neg h7]
  by_cases h8 : m.formatName = "eta"
  · rw [if_pos h8]
    exact ⟨rfl, fun a b => ⟨a, b⟩⟩
  rw [if_neg h8]
  by_cases h9 : m.formatName = "tme"
  · rw [if_pos h9]
    by_cases ht : formatHHMM (capt m "tme") ≠ ""
    · rw [if_pos ht]
      exact ⟨rfl, fun a b => ⟨a, b⟩⟩
    · rw [if_neg ht]
      exact ⟨rfl, fun a b => ⟨a, b⟩⟩
  rw [if_neg h9]
  by_cases h10 : m.formatName = "wind"
  · rw [if_pos h10]
    exact ⟨(windCase_eff m r).1, (windCase_eff m r).2⟩
  rw [if_neg h10]
  by_cases h11 : m.formatName = "oat"
  · rw [if_pos h11]
    cases h : atoi (capt m "oat") <;> exact ⟨rfl, fun a b => ⟨a, b⟩⟩
  rw [if_neg h11]
  by_cases h12 : m.formatName = "out_time"
  · rw [if_pos h12]
    exact ⟨rfl, fun a b => ⟨a, b⟩⟩
  rw [if_neg h12]
  by_cases h13 : m.formatName = "off_time"
  · rw [if_pos h13]
    exact ⟨rfl, fun a b => ⟨a, b⟩⟩
  rw [if_neg h13]
  by_cases h14 : m.formatName = "on_time"
  · rw [if_pos h14]
    exact ⟨rfl, fun a b => ⟨a, b⟩⟩
  rw [if_neg h14]
  by_cases h15 : m.formatName = "in_time"
  · rw [if_pos h15]
    exact ⟨rfl, fun a b => ⟨a, b⟩⟩
  rw [if_neg h15]
  exact ⟨rfl, fun a b => ⟨a, b⟩⟩

lemma foldl_processMatch_snd (g : String → String) : ∀ (ms : List Match) (r : L80Result) (b : Bool),
    (ms.foldl (processMatch g) (r, b)).2 =
      (b || ms.any (fun m => m.formatName == "header_format" || m.formatName == "alt_format"))
  | [], r, b => by simp
  | m :: ms, r, b => by
    rw [List.foldl_cons]
    have h := foldl_processMatch_snd g ms (processMatch g (r, b) m).1 (processMatch g (r, b) m).2
    rw [Prod.mk.eta] at h
    rw [h, show (processMatch g (r, b) m).2 = processFound b m from rfl, processFound_eq]
    simp [Bool.or_assoc]

lemma foldl_processMatch_msgID (g : String → String) : ∀ (ms : List Match) (st : L80Result × Bool),
    (ms.foldl (processMatch g) st).1.msgID = st.1.msgID
  | [], st => rfl
  | m :: ms, st => by
    rw [List.foldl_cons]
    rw [foldl_processMatch_msgID g ms (processMatch g st m)]
    exact (processRes_eff g st.1 st.2 m).1

lemma foldl_processMatch_dirBound (g : String → String) : ∀ (ms : List Match) (st : L80Result × Bool),
    0 ≤ st.1.windDir → st.1.windDir < 360 →
    0 ≤ (ms.foldl (processMatch g) st).1.windDir ∧ (ms.foldl (processMatch g) st).1.windDir < 360
  | [], st, h0, h1 => ⟨h0, h1⟩
  | m :: ms, st, h0, h1 => by
    rw [List.foldl_cons]
    have hb := (processRes_eff g st.1 st.2 m).2 h0 h1
    exact foldl_processMatch_dirBound g ms (processMatch g st m) hb.1 hb.2

/-- Claim C3: for a non-empty Label 80 message, `Parse` returns a
result exactly when some match of a header-bearing format
(`header_format` or `alt_format`) is present; with no header match it
returns nothing regardless of the other formats matched. -/
theorem C3_label80_header_iff (g : String → String) (msg : GoMsg) (ms : List Match)
    (h : msg.text ≠ "") :
    label80Parse g msg ms ≠ none ↔
      ∃ m ∈ ms, m.formatName = "header_format" ∨ m.formatName = "alt_format" := by
  unfold label80Parse l80Finish
  rw [if_neg h]
  have key := foldl_processMatch_snd g ms (l80Init msg) false
  rw [Bool.false_or] at key
  rw [key]
  by_cases hb : ms.any (fun m => m.formatName == "header_format" || m.formatName == "alt_format") = true
  · rw [if_pos hb]
    simp only [List.any_eq_true, Bool.or_eq_true, beq_iff_eq] at hb
    exact iff_of_true (by simp) hb
  · rw [if_neg hb]
    simp only [List.any_eq_true, Bool.or_eq_true, beq_iff_eq] at hb
    exact iff_of_false (by simp) hb

lemma parseFields_msgID (d : String) (r : FstResult) :
    (parseFields d r).msgID = r.msgID :=
  ((tempWindScan_eff ((goFields d).drop 2)
      (speedStep (goFields d) (flStep (goFields d) r))).1).trans
    (((speedStep_eff (goFields d) (flStep (goFields d) r)).1).trans
      ((flStep_eff (goFields d) r).1))

lemma fstBuild_msgID (msg : GoMsg) (caps : FstCaps) :
    (fstBuild msg caps).msgID = msg.id := by
  unfold fstBuild
  by_cases h : caps.rest.length > 0
  · rw [if_pos h, parseFields_msgID]
  · rw [if_neg h]

lemma fstParse_msgID (msg : GoMsg) (r : FstResult) (h : fstParse msg = some r) :
    r.msgID = msg.id := by
  unfold fstParse at h
  by_cases ht : msg.text = ""
  · rw [if_pos ht] at h
    exact absurd h (by simp)
  · rw [if_neg ht] at h
    cases hm : fstFormatsMatch (fstStrip (goTrimSpace msg.text)).toList with
    | none =>
      rw [hm] at h
      exact absurd h (by simp)
    | some caps =>
      rw [hm, Option.some.injEq] at h
      rw [← h]
      exact fstBuild_msgID msg caps

lemma label80Parse_msgID (g : String → String) (msg : GoMsg) (ms : List Match)
    (r : L80Result) (h : label80Parse g msg ms = some r) : r.msgID = msg.id := by
  unfold label80Parse l80Finish at h
  by_cases ht : msg.text = ""
  · rw [if_pos ht] at h
    exact absurd h (by simp)
  · rw [if_neg ht] at h
    by_cases hb : (ms.foldl (processMatch g) (l80Init msg, false)).2 = true
    · rw [if_pos hb, Option.some.injEq] at h
      rw [← h, foldl_processMatch_msgID]
      rfl
    · rw [if_neg hb] at h
      exact absurd h (by simp)

lemma fstParse_all_msgID (msg : GoMsg) :
    (fstParse msg).all (fun r => r.msgID == msg.id) = true := by
  cases hf : fstParse msg with
  | none => rfl
  | some r =>
    show (r.msgID == msg.id) = true
    rw [fstParse_msgID msg r hf]
    simp

lemma label80Parse_all_msgID (g : String → String) (msg : GoMsg) (ms : List Match) :
    (label80Parse g msg ms).all (fun r => r.msgID == msg.id) = true := by
  cases hf : label80Parse g msg ms with
  | none => rfl
  | some r =>
    show (r.msgID == msg.id) = true
    rw [label80Parse_msgID g msg ms r hf]
    simp

/-- Claim C5: `dispatch_first` always yields a result carrying the
message's id, and any result of the FST or Label 80 parsers carries
`MessageID()` equal to the originating message id. -/
theorem C5_message_id (g : String → String) (ms : List Match) (msg : GoMsg) :
    (dispatchFirst g ms msg).messageId = msg.id ∧
    (fstParse msg).all (fun r => r.msgID == msg.id) = true ∧
    (label80Parse g msg ms).all (fun r => r.msgID == msg.id) = true := by
  refine ⟨?_, fstParse_all_msgID msg, label80Parse_all_msgID g msg ms⟩
  unfold dispatchFirst
  split_ifs with h1 h2
  · cases hf : fstParse msg with
    | none => rfl
    | some r => exact fstParse_msgID msg r hf
  · cases hf : label80Parse g msg ms with
    | none => rfl
    | some r => exact label80Parse_msgID g msg ms r hf
  · rfl

lemma parseFields_dirBound (d : String) (r : FstResult)
    (h0 : 0 ≤ r.windDirection) (h1 : r.windDirection ≤ 360) :
    0 ≤ (parseFields d r).windDirection ∧ (parseFields d r).windDirection ≤ 360 := by
  unfold parseFields
  apply tempWindScan_dirBound
  · rw [(speedStep_eff (goFields d) (flStep (goFields d) r)).2.2.2.2,
      (flStep_eff (goFields d) r).2.2.2.2.2.2.2]
    exact h0
  · rw [(speedStep_eff (goFields d) (flStep (goFields d) r)).2.2.2.2,
      (flStep_eff (goFields d) r).2.2.2.2.2.2.2]
    exact h1

/-- Claim C9 (amended): the FST decoder stores wind directions in the
closed range [0, 360] — its guard accepts a direction field of exactly
360 — while the Label 80 decoder stores wind directions in [0, 360). -/
theorem C9_wind_direction_ranges :
    (∀ (d : String) (r : FstResult), 0 ≤ r.windDirection → r.windDirection ≤ 360 →
      0 ≤ (parseFields d r).windDirection ∧ (parseFields d r).windDirection ≤ 360) ∧
    (∀ (g : String → String) (msg : GoMsg) (ms : List Match) (r : L80Result),
      label80Parse g msg ms = some r → 0 ≤ r.windDir ∧ r.windDir < 360) := by
  constructor
  · exact parseFields_dirBound
  · intro g msg ms r h
    unfold label80Parse l80Finish at h
    by_cases ht : msg.text = ""
    · rw [if_pos ht] at h
      exact absurd h (by simp)
    · rw [if_neg ht] at h
      by_cases hb : (ms.foldl (processMatch g) (l80Init msg, false)).2 = true
      · rw [if_pos hb, Option.some.injEq] at h
        rw [← h]
        exact foldl_processMatch_dirBound g ms (l80Init msg, false) (le_refl 0)
          (show (0 : ℤ) < 360 by norm_num)
      · rw [if_neg hb] at h
        exact absurd h (by simp)

lemma speedStep_spec (p0 p1 : String) (rest : List String) (r : FstResult)
    (hgs : r.groundSpeed = 0) (hias : r.ias = 0) (hu : r.speedUnit = "")
    (hst : r.speedType = "") :
    (speedStep (p0 :: p1 :: rest) r).groundSpeed = (claimSpeedClassify p1 rest.head?).gs ∧
    (speedStep (p0 :: p1 :: rest) r).ias = (claimSpeedClassify p1 rest.head?).ias ∧
    (speedStep (p0 :: p1 :: rest) r).speedUnit = (claimSpeedClassify p1 rest.head?).unit ∧
    (speedStep (p0 :: p1 :: rest) r).speedType = (claimSpeedClassify p1 rest.head?).stype := by
  cases hat : atoi p1 with
  | none =>
    simp only [speedStep, claimSpeedClassify, hat]
    exact ⟨hgs, hias, hu, hst⟩
  | some v =>
    simp only [speedStep, claimSpeedClassify, hat]
    by_cases h0 : 0 < v
    case neg =>
      rw [if_neg h0, if_neg h0]
      exact ⟨hgs, hias, hu, hst⟩
    rw [if_pos h0, if_pos h0]
    by_cases h7 : p1.length = 7 ∧ 1000000 < v
    case pos =>
      rw [if_pos h7, if_pos h7]
      cases hi3 : atoiL (sub p1.toList 0 3) with
      | none => exact ⟨hgs, hias, hu, hst⟩
      | some i3 =>
        cases hk4 : atoiL (sub p1.toList 3 7) with
        | none => exact ⟨hgs, rfl, hu, hst⟩
        | some k4 => exact ⟨rfl, rfl, rfl, rfl⟩
    rw [if_neg h7, if_neg h7]
    by_cases hLong : 1000 < v ∧ 4 < p1.length
    case pos =>
      rw [if_pos hLong, if_pos hLong]
      cases hi3 : atoiL (sub p1.toList 0 3) with
      | none => exact ⟨hgs, hias, hu, hst⟩
      | some i3 => exact ⟨hgs, rfl, hu, rfl⟩
    rw [if_neg hLong, if_neg hLong]
    by_cases hKmh : 700 ≤ v ∧ v ≤ 1000
    case pos =>
      rw [if_pos hKmh, if_pos hKmh]
      exact ⟨rfl, hias, rfl, rfl⟩
    rw [if_neg hKmh, if_neg hKmh]
    by_cases hGs : 350 ≤ v ∧ v < 700
    case pos =>
      rw [if_pos hGs, if_pos hGs]
      exact ⟨rfl, hias, rfl, rfl⟩
    rw [if_neg hGs, if_neg hGs]
    by_cases hIas : 100 ≤ v ∧ v < 350
    case neg =>
      rw [if_neg hIas, if_neg hIas]
      exact ⟨rfl, hias, rfl, rfl⟩
    rw [if_pos hIas, if_pos hIas]
    cases rest with
    | nil => exact ⟨hgs, rfl, hu, rfl⟩
    | cons p2 tl =>
      show _ ∧ _ ∧ _ ∧ _
      simp only [List.head?_cons, Option.some_bind]
      cases hnext : atoi p2 with
      | none => exact ⟨hgs, rfl, hu, rfl⟩
      | some n =>
        simp only []
        by_cases hn : 100 ≤ n ∧ n < 1000
        case neg =>
          rw [if_neg hn, if_neg hn]
          exact ⟨hgs, rfl, hu, rfl⟩
        rw [if_pos hn, if_pos hn]
        by_cases h700 : 700 ≤ n
        · rw [if_pos h700, if_pos h700]
          exact ⟨rfl, rfl, rfl, rfl⟩
        · rw [if_neg h700, if_neg h700]
          exact ⟨rfl, rfl, rfl, rfl⟩

/-- The zero-valued `FstResult`, the Go zero value of the struct. -/
def fstEmpty : FstResult :=
  { msgID := 0, timestamp := "", tail := "", sequence := "", origin := "",
    destination := "", latitude := 0, longitude := 0, flightLevel := 0,
    groundSpeed := 0, speedUnit := "", ias := 0, tas := 0, speedType := "",
    temperature := 0, windSpeed := 0, windDirection := 0, rawData := "" }

/-- Claim C2 (amended): the speed token `parts[1]` is classified as in
`claimSpeedClassify` — including the branch the original claim omits: a
value above 1000 in a token longer than 4 characters (that is not a
7-digit value above 1,000,000) contributes only an IAS taken from its
first 3 digits, with no ground-speed fallback. -/
theorem C2_speed_classification (data : String) (r : FstResult) (p0 p1 : String)
    (rest : List String) (hf : goFields data = p0 :: p1 :: rest)
    (hgs : r.groundSpeed = 0) (hias : r.ias = 0) (hu : r.speedUnit = "")
    (hst : r.speedType = "") :
    (parseFields data r).groundSpeed = (claimSpeedClassify p1 rest.head?).gs ∧
    (parseFields data r).ias = (claimSpeedClassify p1 rest.head?).ias ∧
    (parseFields data r).speedUnit = (claimSpeedClassify p1 rest.head?).unit ∧
    (parseFields data r).speedType = (claimSpeedClassify p1 rest.head?).stype := by
  unfold parseFields
  rw [hf]
  have hfl := flStep_eff (p0 :: p1 :: rest) r
  have hsp := speedStep_spec p0 p1 rest (flStep (p0 :: p1 :: rest) r)
    (hfl.2.1.trans hgs) (hfl.2.2.1.trans hias) (hfl.2.2.2.1.trans hu)
    (hfl.2.2.2.2.1.trans hst)
  have htw := tempWindScan_eff ((p0 :: p1 :: rest).drop 2)
    (speedStep (p0 :: p1 :: rest) (flStep (p0 :: p1 :: rest) r))
  exact ⟨htw.2.2.1.trans hsp.1, htw.2.2.2.1.trans hsp.2.1,
    htw.2.2.2.2.1.trans hsp.2.2.1, (htw.2.2.2.2.2).trans hsp.2.2.2⟩

/-- Claim C2, counterexample: for the speed token "12345" (five digits,
value above 1000), the claim predicts the knots ground-speed fallback,
but the code takes the first three digits as an IAS and stores no
ground speed. -/
theorem C2_counterexample :
    (parseFields "330 12345" fstEmpty).speedType = "IAS" ∧
    (parseFields "330 12345" fstEmpty).ias = 123 ∧
    (parseFields "330 12345" fstEmpty).groundSpeed = 0 ∧
    ¬((parseFields "330 12345" fstEmpty).speedUnit = "knots" ∧
      (parseFields "330 12345" fstEmpty).groundSpeed = 12345) := by
  refine ⟨rfl, rfl, rfl, ?_⟩
  decide

/-- Witness for C2 at "330 854" (a km/h-range token). -/
theorem C2_speed_classification_witness :
    (parseFields "330 854" fstEmpty).groundSpeed =
      (claimSpeedClassify "854" ([] : List String).head?).gs ∧
    (parseFields "330 854" fstEmpty).speedType =
      (claimSpeedClassify "854" ([] : List String).head?).stype ∧
    (claimSpeedClassify "854" ([] : List String).head?).gs = 854 := by
  have h := C2_speed_classification "330 854" fstEmpty "330" "854" []
    (by decide) rfl rfl rfl rfl
  exact ⟨h.1, h.2.2.2, by decide⟩

/-- Witness for C3: a singleton header match yields a result; the empty
match list yields nothing. -/
theorem C3_label80_header_iff_witness :
    (label80Parse (fun _ => "") ⟨5, "", "80", "BODY", "T"⟩ [⟨"header_format", []⟩] ≠ none ↔
      ∃ m ∈ [(⟨"header_format", []⟩ : Match)],
        m.formatName = "header_format" ∨ m.formatName = "alt_format") ∧
    (label80Parse (fun _ => "") ⟨5, "", "80", "BODY", "T"⟩ [] ≠ none ↔
      ∃ m ∈ ([] : List Match),
        m.formatName = "header_format" ∨ m.formatName = "alt_format") :=
  ⟨C3_label80_header_iff (fun _ => "") ⟨5, "", "80", "BODY", "T"⟩ [⟨"header_format", []⟩]
      (by decide),
    C3_label80_header_iff (fun _ => "") ⟨5, "", "80", "BODY", "T"⟩ [] (by decide)⟩

/-- Claim C9, counterexample: the FST wind token "62360" passes the
direction guard `wd <= 360` and 360 is stored, so the stored direction
is not in the half-open range [0, 360). -/
theorem C9_counterexample :
    (parseFields "330 854 242 M54C 62360" fstEmpty).windDirection = 360 ∧
    ¬((parseFields "330 854 242 M54C 62360" fstEmpty).windDirection < 360) := by
  refine ⟨rfl, ?_⟩
  decide

/-- The result of the concrete Label 80 parse used in the C9 witness:
an empty-captures header match over message id 5 clears the tail. -/
def l80WitnessRes : L80Result :=
  { msgID := 5, timestamp := "", tail := "", msgType := "", flightNum := "",
    originICAO := "", originName := "", destICAO := "", destName := "",
    latitude := 0, longitude := 0, altitude := 0, mach := "", tas := 0,
    fuelOnBoard := 0, eta := "", reportTime := "", windDir := 0, windSpeedKts := 0,
    windSpeedKmh := 0, oatc := 0, outTime := "", offTime := "", onTime := "",
    inTime := "" }

/-- Witness for C9: a concrete FST field string and a concrete Label 80
parse both land in the claimed ranges. -/
theorem C9_wind_direction_ranges_witness :
    (0 ≤ (parseFields "330 854 242 M54C 62354" fstEmpty).windDirection ∧
      (parseFields "330 854 242 M54C 62354" fstEmpty).windDirection ≤ 360) ∧
    (0 ≤ (l80WitnessRes).windDir ∧ (l80WitnessRes).windDir < 360) :=
  ⟨C9_wind_direction_ranges.1 "330 854 242 M54C 62354" fstEmpty (by decide) (by decide),
    C9_wind_direction_ranges.2 (fun _ => "") ⟨5, "", "80", "BODY", "T"⟩
      [⟨"header_format", []⟩] l80WitnessRes rfl⟩

end AcarsProof
